import Mathlib

set_option linter.unusedVariables false

/- Shallow embedding of src/top.js: the AutoClient voting orchestrator.
   External effects (the network fetch, every puppeteer browser step, the
   page probes) are modelled as environment supplied results of type
   Except String, where an error value models a raised JS exception with
   the given message. -/

/-- Per cycle statistics object of AutoClient (this.stats). -/
structure Stats where
  total : Nat
  success : Nat
  failed : Nat
  invalid : Nat
deriving Repr, DecidableEq

/-- Sum of the three outcome counters. -/
def sumStats (s : Stats) : Nat := s.success + s.failed + s.invalid

/-- Stats reset performed between cycles (resetStats in the source):
clears the three outcome counters and keeps total. -/
def resetStats (s : Stats) : Stats :=
  { s with success := 0, failed := 0, invalid := 0 }

/-- Error values: JS Error objects are modelled by their message string. -/
abbrev Err := String

/-- Optional user supplied errorLog callback; the callback may itself
raise, modelled by returning an error value. -/
abbrev ErrHook := Option (Err → Except Err Unit)

/-- Translation of AutoClient handleError: with an errorLog function
configured, call it with the error; if the callback raises, the callback
error is rethrown; with no errorLog, the original error is thrown. -/
def handleError (errorLog : ErrHook) (e : Err) : Except Err Unit :=
  match errorLog with
  | some f =>
    match f e with
    | .ok _ => .ok ()
    | .error e2 => .error e2
  | none => .error e

/-- Char list p is a leading segment of char list s. -/
def leadsWith : List Char → List Char → Bool
  | [], _ => true
  | _ :: _, [] => false
  | p :: ps, c :: cs => p == c && leadsWith ps cs

/-- Char list p occurs contiguously inside the second char list. -/
def hasInside (p : List Char) : List Char → Bool
  | [] => leadsWith p []
  | c :: cs => leadsWith p (c :: cs) || hasInside p cs

/-- JS String.prototype.includes: pat occurs as a substring of s. -/
def strContains (s pat : String) : Bool := hasInside pat.toList s.toList

/-- Abbreviated token used in log and error messages:
token.slice(0, 5) followed by three dots. -/
def shortToken (t : String) : String := t.take 5 ++ "..."

/-- A page button as seen by the in page click scripts. -/
structure Button where
  text : String
  disabled : Bool
deriving Repr, DecidableEq

/-- In page script on the vote page: the first button whose text contains
the word Vote and which is not disabled (the querySelectorAll scan). -/
def findVoteButton (btns : List Button) : Option Button :=
  btns.find? (fun b => strContains b.text "Vote" && !b.disabled)

/-- Classification of one probe of the vote page text (the page.evaluate
inside waitForVoteStatus). -/
inductive VoteProbe where
  | vote
  | already
  | wait
deriving Repr, DecidableEq

/-- The in page classification: check for the can vote marker first, then
the already voted marker, otherwise keep waiting. -/
def classifyVoteText (txt : String) : VoteProbe :=
  if strContains txt "You can vote now!" then .vote
  else if strContains txt "You have already voted" then .already
  else .wait

/-- Result of the bounded status poll. -/
inductive PollStatus where
  | vote
  | already
  | timeout
deriving Repr, DecidableEq

/-- One probe of the page: none models a page.evaluate call that raised
(the loop catches and ignores it), some txt a successful read of the
body text. Probes are indexed by attempt number. -/
abbrev ProbeSeq := Nat → Option String

/-- Loop of waitForVoteStatus. The source loops while the elapsed time
stays below timeoutMs, probing every 2500 ms; at the check of attempt i
the elapsed time is 2500 * i. The fuel argument is only an upper bound
on the iteration count used to express the recursion; the time guard
2500 * i < timeoutMs is what decides termination, as in the source. -/
def waitGo (probe : ProbeSeq) (timeoutMs : Nat) : Nat → Nat → PollStatus
  | _, 0 => .timeout
  | i, fuel + 1 =>
    if 2500 * i < timeoutMs then
      match probe i with
      | some txt =>
        match classifyVoteText txt with
        | .vote => .vote
        | .already => .already
        | .wait => waitGo probe timeoutMs (i + 1) fuel
      | none => waitGo probe timeoutMs (i + 1) fuel
    else .timeout

/-- Translation of waitForVoteStatus: poll the page text every 2500 ms
until a terminal marker appears or timeoutMs elapses. -/
def waitForVoteStatus (probe : ProbeSeq) (timeoutMs : Nat) : PollStatus :=
  waitGo probe timeoutMs 0 (timeoutMs / 2500 + 1)

/-- Environment of one voteForBot run: the outcome of each external
browser step, in program order. An error value models that step raising
a JS exception. -/
structure VoteEnv where
  connect : Except Err Unit
  injectToken : Except Err Unit
  gotoTop : Except Err Unit
  clickLoginEval : Except Err Unit
  waitNav1 : Except Err Unit
  setViewport : Except Err Unit
  waitAuthSelector : Except Err Unit
  clickAuthButton : Except Err Unit
  waitNav2 : Except Err Unit
  loginCheckText : Except Err String
  gotoVote : Except Err Unit
  probes : ProbeSeq
  voteButtons : Except Err (List Button)
  closeBrowser : Except Err Unit

/-- Observable outcome of one voteForBot run. result mirrors the JS
return value or raised error; clicked records whether the vote button
script actually clicked a button. -/
structure VoteTrace where
  result : Except Err Bool
  sessionAcquired : Bool
  closeCalled : Bool
  clicked : Bool

/-- Body of voteForBot after a successful browser connection: token
injection, navigation, the login flow, the logged in check, the vote
page poll and the best effort vote click. Returns the JS return value
together with the clicked flag. -/
def voteBody (env : VoteEnv) : Except Err (Bool × Bool) := do
  env.injectToken
  env.gotoTop
  env.clickLoginEval
  env.waitNav1
  env.setViewport
  env.waitAuthSelector
  env.clickAuthButton
  env.waitNav2
  let bodyText ← env.loginCheckText
  if strContains bodyText "Login" then
    throw "Authorization failed - Discord OAuth did not complete"
  env.gotoVote
  match waitForVoteStatus env.probes 60000 with
  | .vote => do
    let btns ← env.voteButtons
    pure (true, (findVoteButton btns).isSome)
  | .already => pure (false, false)
  | .timeout => pure (false, false)

/-- Translation of voteForBot: the browser connection races a 30 s
timeout (a failure means no session was acquired); then the body runs,
and the finally block closes the browser whenever one was acquired; an
error raised by the close call is caught and only logged, never
rethrown. -/
def voteForBot (env : VoteEnv) : VoteTrace :=
  match env.connect with
  | .error e =>
    { result := .error e, sessionAcquired := false, closeCalled := false, clicked := false }
  | .ok _ =>
    match voteBody env, env.closeBrowser with
    | .ok rc, .ok _ =>
      { result := .ok rc.1, sessionAcquired := true, closeCalled := true, clicked := rc.2 }
    | .ok rc, .error _ =>
      { result := .ok rc.1, sessionAcquired := true, closeCalled := true, clicked := rc.2 }
    | .error e, .ok _ =>
      { result := .error e, sessionAcquired := true, closeCalled := true, clicked := false }
    | .error e, .error _ =>
      { result := .error e, sessionAcquired := true, closeCalled := true, clicked := false }

/-- Environment of one handleSingle run: the token validation fetch plus
the browser environment. check is the fetch of the users endpoint:
ok b gives the res.ok flag, an error value models the request raising. -/
structure AccountEnv where
  check : Except Err Bool
  vote : VoteEnv

/-- Observable outcome of one handleSingle run. err is ok when the
worker reached its end normally and an error value when an exception
propagated out of handleSingle. -/
structure SingleTrace where
  stats : Stats
  err : Except Err Unit
  voteInvoked : Bool
  sessionAcquired : Bool
  clicked : Bool
  token : String
  proxy : Option String

/-- Translation of handleSingle: validate the token (a failed or raising
fetch counts as invalid); on invalid, bump the invalid counter and route
an invalid token error through handleError without calling voteForBot;
otherwise run voteForBot and bump success or failed, routing a raised
error through handleError with a wrapping message. Every counter update
happens before the corresponding error routing. -/
def handleSingle (errorLog : ErrHook) (token : String) (proxy : Option String)
    (env : AccountEnv) (stats : Stats) : SingleTrace :=
  let valid := match env.check with
    | .ok b => b
    | .error _ => false
  if valid then
    let vt := voteForBot env.vote
    match vt.result with
    | .ok true =>
      { stats := { stats with success := stats.success + 1 }, err := .ok (),
        voteInvoked := true, sessionAcquired := vt.sessionAcquired, clicked := vt.clicked,
        token := token, proxy := proxy }
    | .ok false =>
      { stats := { stats with failed := stats.failed + 1 }, err := .ok (),
        voteInvoked := true, sessionAcquired := vt.sessionAcquired, clicked := vt.clicked,
        token := token, proxy := proxy }
    | .error e =>
      { stats := { stats with failed := stats.failed + 1 },
        err := handleError errorLog ("Token " ++ shortToken token ++ " error: " ++ e),
        voteInvoked := true, sessionAcquired := vt.sessionAcquired, clicked := vt.clicked,
        token := token, proxy := proxy }
  else
    { stats := { stats with invalid := stats.invalid + 1 },
      err := handleError errorLog ("Invalid token " ++ shortToken token),
      voteInvoked := false, sessionAcquired := false, clicked := false,
      token := token, proxy := proxy }

/-- Proxy passed to account i: the source indexes proxies with i modulo
the list length; with an empty list the JS index expression is NaN and
the lookup yields undefined, modelled as none. -/
def proxyArg (proxies : List String) (i : Nat) : Option String :=
  if proxies.length = 0 then none
  else proxies.get? (i % proxies.length)

/-- Outcome of one dispatch phase or cycle iteration: the stats object,
whether an exception propagated, and the per account traces in account
order. -/
structure CycleTrace where
  stats : Stats
  err : Except Err Unit
  traces : List SingleTrace

/-- Environments for all accounts of one cycle, indexed by position. -/
abbrev EnvSeq := Nat → AccountEnv

/-- Loop of sequentialCycle from account index i: run one worker; an
exception escaping the worker is caught and routed through handleError
again; if that routing itself raises, the whole cycle raises and later
accounts are never dispatched. -/
def seqGo (errorLog : ErrHook) (proxies : List String) (envs : EnvSeq) :
    List String → Nat → Stats → CycleTrace
  | [], _, s => { stats := s, err := .ok (), traces := [] }
  | tok :: rest, i, s =>
    let tr := handleSingle errorLog tok (proxyArg proxies i) (envs i) s
    match tr.err with
    | .ok _ =>
      let c := seqGo errorLog proxies envs rest (i + 1) tr.stats
      { stats := c.stats, err := c.err, traces := tr :: c.traces }
    | .error e =>
      match handleError errorLog e with
      | .ok _ =>
        let c := seqGo errorLog proxies envs rest (i + 1) tr.stats
        { stats := c.stats, err := c.err, traces := tr :: c.traces }
      | .error e2 => { stats := tr.stats, err := .error e2, traces := [tr] }

/-- Translation of sequentialCycle. -/
def sequentialCycle (errorLog : ErrHook) (tokens proxies : List String)
    (envs : EnvSeq) (s : Stats) : CycleTrace :=
  seqGo errorLog proxies envs tokens 0 s

/-- Loop of parallelCycle: every worker promise gets a catch handler
that routes the error through handleError; whatever that call returns or
raises is absorbed by Promise.allSettled, so the dispatch itself never
raises and every account always runs. Counter increments are modelled in
list order, one linearization of the single threaded event loop. -/
def parGo (errorLog : ErrHook) (proxies : List String) (envs : EnvSeq) :
    List String → Nat → Stats → Stats × List SingleTrace
  | [], _, s => (s, [])
  | tok :: rest, i, s =>
    let tr := handleSingle errorLog tok (proxyArg proxies i) (envs i) s
    let absorbed := match tr.err with
      | .error e => some (handleError errorLog e)
      | .ok _ => none
    let next := parGo errorLog proxies envs rest (i + 1) tr.stats
    (next.1, tr :: next.2)

/-- Translation of parallelCycle: Promise.allSettled always fulfills, so
the err component is always ok. -/
def parallelCycle (errorLog : ErrHook) (tokens proxies : List String)
    (envs : EnvSeq) (s : Stats) : CycleTrace :=
  let p := parGo errorLog proxies envs tokens 0 s
  { stats := p.1, err := .ok (), traces := p.2 }

/-- One iteration of the autovoteBot while loop, up to the cooldown
sleep: dispatch all accounts in the configured mode; a raised dispatch
error is caught and routed through handleError, and if that routing
raises, the error propagates out of autovoteBot and the loop stops;
otherwise the stats are logged and reset and the loop continues. -/
def cycleStep (errorLog : ErrHook) (runInParallel : Bool)
    (tokens proxies : List String) (envs : EnvSeq) (s : Stats) : CycleTrace :=
  let c := if runInParallel then parallelCycle errorLog tokens proxies envs s
           else sequentialCycle errorLog tokens proxies envs s
  match c.err with
  | .ok _ => { stats := resetStats c.stats, err := .ok (), traces := c.traces }
  | .error e =>
    match handleError errorLog e with
    | .ok _ => { stats := resetStats c.stats, err := .ok (), traces := c.traces }
    | .error e2 => { stats := c.stats, err := .error e2, traces := c.traces }

/-- Exactly one of the three outcome counters grows by one, the others
and total unchanged. -/
def oneIncrement (s t : Stats) : Prop :=
  t = { s with success := s.success + 1 } ∨
  t = { s with failed := s.failed + 1 } ∨
  t = { s with invalid := s.invalid + 1 }

/-- All authentication phase browser steps of one voteForBot run succeed
and the page text after login no longer shows the Login marker. -/
def authSteps (env : VoteEnv) : Prop :=
  env.injectToken = .ok () ∧ env.gotoTop = .ok () ∧ env.clickLoginEval = .ok () ∧
  env.waitNav1 = .ok () ∧ env.setViewport = .ok () ∧ env.waitAuthSelector = .ok () ∧
  env.clickAuthButton = .ok () ∧ env.waitNav2 = .ok () ∧
  (∃ txt, env.loginCheckText = .ok txt ∧ strContains txt "Login" = false) ∧
  env.gotoVote = .ok ()

/-- A probe outcome that keeps the poll loop going: the probe raised, or
the text shows neither terminal marker. -/
def isWaitingProbe (o : Option String) : Bool :=
  match o with
  | none => true
  | some txt => classifyVoteText txt == VoteProbe.wait

/-- Map a terminal probe classification to the poll result. -/
def probeToPoll (p : VoteProbe) : PollStatus :=
  match p with
  | .vote => .vote
  | .already => .already
  | .wait => .timeout

/- Concrete environments used by witness theorems. -/

/-- A browser environment where every step succeeds, login completes and
the vote page immediately shows the already voted marker. -/
def envAllOk : VoteEnv :=
  { connect := .ok (), injectToken := .ok (), gotoTop := .ok (),
    clickLoginEval := .ok (), waitNav1 := .ok (), setViewport := .ok (),
    waitAuthSelector := .ok (), clickAuthButton := .ok (), waitNav2 := .ok (),
    loginCheckText := .ok "Welcome back", gotoVote := .ok (),
    probes := fun _ => some "You have already voted",
    voteButtons := .ok [], closeBrowser := .ok () }

/-- An account whose validation fetch raises. -/
def envCheckErr : AccountEnv := { check := .error "network down", vote := envAllOk }

/-- An account whose validation succeeds and whose vote run finds the
already voted marker. -/
def envAccountOk : AccountEnv := { check := .ok true, vote := envAllOk }

/-- An account whose validation succeeds but whose first navigation step
inside the browser session raises. -/
def envNavCrash : AccountEnv :=
  { check := .ok true, vote := { envAllOk with gotoTop := .error "nav crash" } }

/- Helper lemmas. -/

/-- Every handleSingle run bumps exactly one outcome counter by one. -/
theorem handleSingle_oneIncrement (errorLog : ErrHook) (token : String)
    (proxy : Option String) (env : AccountEnv) (stats : Stats) :
    oneIncrement stats (handleSingle errorLog token proxy env stats).stats := by
  unfold oneIncrement handleSingle
  cases hc : env.check with
  | error e => simp
  | ok b =>
    cases b
    · simp
    · cases hv : (voteForBot env.vote).result with
      | ok b2 => cases b2 <;> simp [hv]
      | error e2 => simp [hv]

/-- The err component of a handleSingle run does not depend on the stats
object passed in. -/
theorem handleSingle_err_stats (errorLog : ErrHook) (token : String)
    (proxy : Option String) (env : AccountEnv) (s1 s2 : Stats) :
    (handleSingle errorLog token proxy env s1).err =
      (handleSingle errorLog token proxy env s2).err := by
  unfold handleSingle
  cases hc : env.check with
  | error e => simp
  | ok b =>
    cases b
    · simp
    · cases hv : (voteForBot env.vote).result with
      | ok b2 => cases b2 <;> simp [hv]
      | error e2 => simp [hv]

/-- Theorem for claim C4: the error policy invokes a configured handler
with the error (so a raising handler propagates its own error and a
returning handler recovers), and with no handler configured it rethrows
the original error. -/
theorem spec_C4 (f : Err → Except Err Unit) (e : Err) :
    handleError none e = Except.error e ∧ handleError (some f) e = f e := by
  refine ⟨rfl, ?_⟩
  unfold handleError
  cases h : f e with
  | ok u => cases u; simp [h]
  | error e2 => simp [h]

/-- Theorem for claim C6: when the credential check returns a non ok
response or itself raises, the worker bumps only the invalid counter,
routes the invalid token error through the error policy, and never
invokes the voting routine, so no browser session is acquired. -/
theorem spec_C6 (errorLog : ErrHook) (token : String) (proxy : Option String)
    (env : AccountEnv) (stats : Stats)
    (h : env.check = .ok false ∨ ∃ e, env.check = .error e) :
    (handleSingle errorLog token proxy env stats).stats
        = { stats with invalid := stats.invalid + 1 } ∧
    (handleSingle errorLog token proxy env stats).err
        = handleError errorLog ("Invalid token " ++ shortToken token) ∧
    (handleSingle errorLog token proxy env stats).voteInvoked = false ∧
    (handleSingle errorLog token proxy env stats).sessionAcquired = false := by
  rcases h with hc | ⟨e, hc⟩ <;> simp [handleSingle, hc]

/-- Witness for spec_C6 at a concrete raising check. -/
theorem spec_C6_witness :
    (handleSingle none "tokenAlpha" none envCheckErr ⟨1, 0, 0, 0⟩).stats
        = { total := 1, success := 0, failed := 0, invalid := 1 } ∧
    (handleSingle none "tokenAlpha" none envCheckErr ⟨1, 0, 0, 0⟩).err
        = handleError none ("Invalid token " ++ shortToken "tokenAlpha") ∧
    (handleSingle none "tokenAlpha" none envCheckErr ⟨1, 0, 0, 0⟩).voteInvoked = false ∧
    (handleSingle none "tokenAlpha" none envCheckErr ⟨1, 0, 0, 0⟩).sessionAcquired = false :=
  spec_C6 none "tokenAlpha" none envCheckErr ⟨1, 0, 0, 0⟩ (Or.inr ⟨"network down", rfl⟩)

/-- Theorem for claim C7: once the browser connection succeeded, the
close call runs on every exit path of the voting routine, and the
outcome of the close call never changes the routine result (a teardown
failure is swallowed, never masking the original result or error). -/
theorem spec_C7 (env : VoteEnv) :
    (∀ u, env.connect = .ok u → (voteForBot env).closeCalled = true) ∧
    (∀ c, (voteForBot { env with closeBrowser := c }).result = (voteForBot env).result) := by
  constructor
  · intro u hu
    cases u
    simp only [voteForBot, hu]
    cases hb : voteBody env <;> cases hc : env.closeBrowser <;> rfl
  · intro c
    have hb : voteBody { env with closeBrowser := c } = voteBody env := rfl
    simp only [voteForBot, hb]
    cases hcn : env.connect with
    | error e => rfl
    | ok u => cases hv : voteBody env <;> cases c <;> cases hc : env.closeBrowser <;> rfl

/-- Witness for spec_C7 at a concrete fully succeeding environment. -/
theorem spec_C7_witness : (voteForBot envAllOk).closeCalled = true :=
  (spec_C7 envAllOk).1 () rfl

/-- Counterexample for claim C3: an account whose browser session dies
mid flight with no error handler configured: the error does propagate
out of the worker, yet the failed counter is incremented, that is, an
outcome is recorded for that cycle, contradicting the claim that no
counter is incremented for such an account. -/
theorem spec_C3_cex :
    (handleSingle none "tokenAlpha" none envNavCrash ⟨1, 0, 0, 0⟩).err
        = Except.error "Token token... error: nav crash" ∧
    (handleSingle none "tokenAlpha" none envNavCrash ⟨1, 0, 0, 0⟩).sessionAcquired = true ∧
    (handleSingle none "tokenAlpha" none envNavCrash ⟨1, 0, 0, 0⟩).stats.failed = 1 :=
  ⟨rfl, rfl, rfl⟩

/-- Theorem for amended claim C3: exactly one outcome is recorded per
account per cycle attempt, including for an account whose error is not
absorbed by the error policy: the counter update happens before the
error is routed, so even a propagated error leaves exactly one counter
incremented. -/
theorem spec_C3 (errorLog : ErrHook) (token : String) (proxy : Option String)
    (env : AccountEnv) (stats : Stats) (e : Err)
    (h : (handleSingle errorLog token proxy env stats).err = .error e) :
    oneIncrement stats (handleSingle errorLog token proxy env stats).stats :=
  handleSingle_oneIncrement errorLog token proxy env stats

/-- Witness for spec_C3 at a concrete propagating account. -/
theorem spec_C3_witness :
    oneIncrement ⟨1, 0, 0, 0⟩ (handleSingle none "tokenAlpha" none envNavCrash ⟨1, 0, 0, 0⟩).stats :=
  spec_C3 none "tokenAlpha" none envNavCrash ⟨1, 0, 0, 0⟩ "Token token... error: nav crash" rfl

/-- A one counter increment adds one to the counter sum and keeps total. -/
theorem oneIncrement_sum {s t : Stats} (h : oneIncrement s t) :
    sumStats t = sumStats s + 1 ∧ t.total = s.total := by
  rcases h with h | h | h <;> subst h <;> exact ⟨by simp [sumStats]; omega, rfl⟩

/-- Sum bookkeeping for the sequential dispatch loop: total never
changes, the counter sum grows by at most one per listed account, and
exactly one per account when no exception propagates. -/
theorem seqGo_sum (errorLog : ErrHook) (proxies : List String) (envs : EnvSeq) :
    ∀ (l : List String) (i : Nat) (s : Stats),
    (seqGo errorLog proxies envs l i s).stats.total = s.total ∧
    sumStats (seqGo errorLog proxies envs l i s).stats ≤ sumStats s + l.length ∧
    ((seqGo errorLog proxies envs l i s).err = .ok () →
      sumStats (seqGo errorLog proxies envs l i s).stats = sumStats s + l.length) := by
  intro l
  induction l with
  | nil => intro i s; refine ⟨rfl, by simp [seqGo], by simp [seqGo]⟩
  | cons tok rest ih =>
    intro i s
    obtain ⟨hs1, hs2⟩ :=
      oneIncrement_sum (handleSingle_oneIncrement errorLog tok (proxyArg proxies i) (envs i) s)
    obtain ⟨t1, t2, t3⟩ := ih (i + 1) (handleSingle errorLog tok (proxyArg proxies i) (envs i) s).stats
    cases herr : (handleSingle errorLog tok (proxyArg proxies i) (envs i) s).err with
    | ok u =>
      simp only [seqGo, herr, List.length_cons]
      refine ⟨by rw [t1, hs2], by omega, fun hok => ?_⟩
      have := t3 hok
      omega
    | error e =>
      cases hhe : handleError errorLog e with
      | ok u =>
        simp only [seqGo, herr, hhe, List.length_cons]
        refine ⟨by rw [t1, hs2], by omega, fun hok => ?_⟩
        have := t3 hok
        omega
      | error e2 =>
        simp only [seqGo, herr, hhe, List.length_cons]
        refine ⟨hs2, by omega, fun hok => by simp at hok⟩

/-- Sum bookkeeping for the parallel dispatch loop: total never changes
and the counter sum grows by exactly one per listed account. -/
theorem parGo_sum (errorLog : ErrHook) (proxies : List String) (envs : EnvSeq) :
    ∀ (l : List String) (i : Nat) (s : Stats),
    (parGo errorLog proxies envs l i s).1.total = s.total ∧
    sumStats (parGo errorLog proxies envs l i s).1 = sumStats s + l.length := by
  intro l
  induction l with
  | nil => intro i s; exact ⟨rfl, by simp [parGo]⟩
  | cons tok rest ih =>
    intro i s
    obtain ⟨hs1, hs2⟩ :=
      oneIncrement_sum (handleSingle_oneIncrement errorLog tok (proxyArg proxies i) (envs i) s)
    obtain ⟨t1, t2⟩ := ih (i + 1) (handleSingle errorLog tok (proxyArg proxies i) (envs i) s).stats
    simp only [parGo]
    refine ⟨by rw [t1, hs2], ?_⟩
    simp only [List.length_cons]
    omega

/-- Theorem for claim C2: every completed worker bumps exactly one of
the three counters exactly once; starting from the zeroed stats of a
cycle, the counter sum stays at or below total after any dispatched
account prefix in both modes, and equals total once a dispatch phase
completes without a propagating exception. -/
theorem spec_C2 (errorLog : ErrHook) (tokens proxies : List String) (envs : EnvSeq) :
    (∀ token proxy env stats, oneIncrement stats (handleSingle errorLog token proxy env stats).stats) ∧
    (∀ pre suf, tokens = pre ++ suf →
      sumStats (sequentialCycle errorLog pre proxies envs ⟨tokens.length, 0, 0, 0⟩).stats
          ≤ tokens.length ∧
      sumStats (parallelCycle errorLog pre proxies envs ⟨tokens.length, 0, 0, 0⟩).stats
          ≤ tokens.length) ∧
    ((sequentialCycle errorLog tokens proxies envs ⟨tokens.length, 0, 0, 0⟩).err = .ok () →
      sumStats (sequentialCycle errorLog tokens proxies envs ⟨tokens.length, 0, 0, 0⟩).stats
          = tokens.length) ∧
    sumStats (parallelCycle errorLog tokens proxies envs ⟨tokens.length, 0, 0, 0⟩).stats
        = tokens.length := by
  have hzero : sumStats ⟨tokens.length, 0, 0, 0⟩ = 0 := rfl
  refine ⟨fun token proxy env stats => handleSingle_oneIncrement errorLog token proxy env stats,
    ?_, ?_, ?_⟩
  · intro pre suf hsplit
    have h1 := (seqGo_sum errorLog proxies envs pre 0 ⟨tokens.length, 0, 0, 0⟩).2.1
    have h2 := (parGo_sum errorLog proxies envs pre 0 ⟨tokens.length, 0, 0, 0⟩).2
    have hlen : pre.length ≤ tokens.length := by subst hsplit; simp
    constructor
    · simp only [sequentialCycle]; omega
    · simp only [parallelCycle]; omega
  · intro hok
    have h3 := (seqGo_sum errorLog proxies envs tokens 0 ⟨tokens.length, 0, 0, 0⟩).2.2
    simp only [sequentialCycle] at hok ⊢
    have := h3 hok
    omega
  · have h4 := (parGo_sum errorLog proxies envs tokens 0 ⟨tokens.length, 0, 0, 0⟩).2
    simp only [parallelCycle]
    omega

/-- Witness for spec_C2 at a concrete one account cycle that completes
without a propagating exception. -/
theorem spec_C2_witness :
    sumStats (sequentialCycle none ["tokenAlpha"] [] (fun _ => envAccountOk) ⟨1, 0, 0, 0⟩).stats
        = 1 :=
  (spec_C2 none ["tokenAlpha"] [] (fun _ => envAccountOk)).2.2.1 rfl

/-- The worker trace records the proxy it was dispatched with. -/
theorem handleSingle_proxy (errorLog : ErrHook) (token : String) (proxy : Option String)
    (env : AccountEnv) (stats : Stats) :
    (handleSingle errorLog token proxy env stats).proxy = proxy := by
  unfold handleSingle
  cases hc : env.check with
  | error e => simp
  | ok b =>
    cases b
    · simp
    · cases hv : (voteForBot env.vote).result with
      | ok b2 => cases b2 <;> simp [hv]
      | error e2 => simp [hv]

/-- The worker trace records the token it was dispatched with. -/
theorem handleSingle_token (errorLog : ErrHook) (token : String) (proxy : Option String)
    (env : AccountEnv) (stats : Stats) :
    (handleSingle errorLog token proxy env stats).token = token := by
  unfold handleSingle
  cases hc : env.check with
  | error e => simp
  | ok b =>
    cases b
    · simp
    · cases hv : (voteForBot env.vote).result with
      | ok b2 => cases b2 <;> simp [hv]
      | error e2 => simp [hv]

/-- Trace alignment of the sequential dispatch loop: the trace recorded
at position j belongs to account j and carries the proxy computed for
index i0 + j. -/
theorem seqGo_traces (errorLog : ErrHook) (proxies : List String) (envs : EnvSeq) :
    ∀ (l : List String) (i0 : Nat) (s : Stats) (j : Nat) (tr : SingleTrace),
    (seqGo errorLog proxies envs l i0 s).traces.get? j = some tr →
    tr.proxy = proxyArg proxies (i0 + j) ∧ l.get? j = some tr.token := by
  intro l
  induction l with
  | nil => intro i0 s j tr h; simp [seqGo] at h
  | cons tok rest ih =>
    intro i0 s j tr h
    cases herr : (handleSingle errorLog tok (proxyArg proxies i0) (envs i0) s).err with
    | ok u =>
      simp only [seqGo, herr] at h
      cases j with
      | zero =>
        simp only [List.get?] at h
        cases h
        refine ⟨?_, ?_⟩
        · rw [handleSingle_proxy, Nat.add_zero]
        · rw [handleSingle_token]; rfl
      | succ j2 =>
        have := ih (i0 + 1) (handleSingle errorLog tok (proxyArg proxies i0) (envs i0) s).stats
          j2 tr (by simpa using h)
        refine ⟨?_, by simpa using this.2⟩
        rw [show i0 + (j2 + 1) = i0 + 1 + j2 by omega]
        exact this.1
    | error e =>
      cases hhe : handleError errorLog e with
      | ok u =>
        simp only [seqGo, herr, hhe] at h
        cases j with
        | zero =>
          simp only [List.get?] at h
          cases h
          refine ⟨?_, ?_⟩
          · rw [handleSingle_proxy, Nat.add_zero]
          · rw [handleSingle_token]; rfl
        | succ j2 =>
          have := ih (i0 + 1) (handleSingle errorLog tok (proxyArg proxies i0) (envs i0) s).stats
            j2 tr (by simpa using h)
          refine ⟨?_, by simpa using this.2⟩
          rw [show i0 + (j2 + 1) = i0 + 1 + j2 by omega]
          exact this.1
      | error e2 =>
        simp only [seqGo, herr, hhe] at h
        cases j with
        | zero =>
          simp only [List.get?] at h
          cases h
          refine ⟨?_, ?_⟩
          · rw [handleSingle_proxy, Nat.add_zero]
          · rw [handleSingle_token]; rfl
        | succ j2 => simp at h

/-- Trace alignment of the parallel dispatch loop. -/
theorem parGo_traces (errorLog : ErrHook) (proxies : List String) (envs : EnvSeq) :
    ∀ (l : List String) (i0 : Nat) (s : Stats) (j : Nat) (tr : SingleTrace),
    (parGo errorLog proxies envs l i0 s).2.get? j = some tr →
    tr.proxy = proxyArg proxies (i0 + j) ∧ l.get? j = some tr.token := by
  intro l
  induction l with
  | nil => intro i0 s j tr h; simp [parGo] at h
  | cons tok rest ih =>
    intro i0 s j tr h
    simp only [parGo] at h
    cases j with
    | zero =>
      simp only [List.get?] at h
      cases h
      refine ⟨?_, ?_⟩
      · rw [handleSingle_proxy, Nat.add_zero]
      · rw [handleSingle_token]; rfl
    | succ j2 =>
      have := ih (i0 + 1) (handleSingle errorLog tok (proxyArg proxies i0) (envs i0) s).stats
        j2 tr (by simpa using h)
      refine ⟨?_, by simpa using this.2⟩
      rw [show i0 + (j2 + 1) = i0 + 1 + j2 by omega]
      exact this.1

/-- Theorem for claim C9: with a non empty proxy list every account at
position i is dispatched with proxy i mod M, and with an empty proxy
list no account gets a proxy; this holds in both the sequential and the
parallel dispatch mode, as recorded in the trace of each dispatched
account. -/
theorem spec_C9 (errorLog : ErrHook) (tokens proxies : List String) (envs : EnvSeq) (s : Stats) :
    (∀ i, 0 < proxies.length → proxyArg proxies i = proxies.get? (i % proxies.length)) ∧
    (∀ i, proxies.length = 0 → proxyArg proxies i = none) ∧
    (∀ j tr, (sequentialCycle errorLog tokens proxies envs s).traces.get? j = some tr →
      tr.proxy = proxyArg proxies j ∧ tokens.get? j = some tr.token) ∧
    (∀ j tr, (parallelCycle errorLog tokens proxies envs s).traces.get? j = some tr →
      tr.proxy = proxyArg proxies j ∧ tokens.get? j = some tr.token) := by
  refine ⟨?_, ?_, ?_, ?_⟩
  · intro i hM
    simp [proxyArg, Nat.pos_iff_ne_zero.mp hM]
  · intro i hM
    simp [proxyArg, hM]
  · intro j tr h
    have := seqGo_traces errorLog proxies envs tokens 0 s j tr h
    simpa using this
  · intro j tr h
    have := parGo_traces errorLog proxies envs tokens 0 s j tr (by simpa [parallelCycle] using h)
    simpa using this

/-- Witness for spec_C9 at concrete proxy lists. -/
theorem spec_C9_witness :
    proxyArg ["p0", "p1"] 3 = ["p0", "p1"].get? (3 % 2) ∧
    proxyArg ([] : List String) 3 = none :=
  ⟨(spec_C9 none [] ["p0", "p1"] (fun _ => envAccountOk) ⟨0, 0, 0, 0⟩).1 3 (by decide),
   (spec_C9 none [] [] (fun _ => envAccountOk) ⟨0, 0, 0, 0⟩).2.1 3 rfl⟩

/-- In the sequential loop with no error handler, the first account
whose worker propagates an error aborts the loop with that error. -/
theorem seqGo_errProp (proxies : List String) (envs : EnvSeq) :
    ∀ (l : List String) (i0 : Nat) (s : Stats) (idx : Nat) (tok : String) (e : Err),
    l.get? idx = some tok →
    (∀ j tj st, j < idx → l.get? j = some tj →
      (handleSingle none tj (proxyArg proxies (i0 + j)) (envs (i0 + j)) st).err = .ok ()) →
    (∀ st, (handleSingle none tok (proxyArg proxies (i0 + idx)) (envs (i0 + idx)) st).err
        = .error e) →
    (seqGo none proxies envs l i0 s).err = .error e := by
  intro l
  induction l with
  | nil => intro i0 s idx tok e hget; simp at hget
  | cons tok0 rest ih =>
    intro i0 s idx tok e hget hpre herr
    cases idx with
    | zero =>
      have h0 : tok0 = tok := by simpa using hget
      subst h0
      have he := herr s
      rw [Nat.add_zero] at he
      simp only [seqGo, he]
      rfl
    | succ idx2 =>
      have h0 : (handleSingle none tok0 (proxyArg proxies i0) (envs i0) s).err = .ok () := by
        have := hpre 0 tok0 s (Nat.succ_pos idx2) rfl
        simpa using this
      simp only [seqGo, h0]
      exact ih (i0 + 1) (handleSingle none tok0 (proxyArg proxies i0) (envs i0) s).stats
        idx2 tok e (by simpa using hget)
        (fun j tj st hj hg => by
          have := hpre (j + 1) tj st (Nat.succ_lt_succ hj) (by simpa using hg)
          rw [show i0 + 1 + j = i0 + (j + 1) by omega]
          exact this)
        (fun st => by
          rw [show i0 + 1 + idx2 = i0 + (idx2 + 1) by omega]
          exact herr st)

/-- Counterexample for claim C1: with no error handler configured, a
per account error does not always propagate out of autovoteBot. Here
the single account raises an invalid token error (the worker err shows
the propagated error), yet in parallel mode the cycle iteration
completes normally, so the repeating loop continues. -/
theorem spec_C1_cex :
    (handleSingle none "tokenAlpha" none envCheckErr ⟨1, 0, 0, 0⟩).err
        = Except.error "Invalid token token..." ∧
    (cycleStep none true ["tokenAlpha"] [] (fun _ => envCheckErr) ⟨1, 0, 0, 0⟩).err
        = Except.ok () :=
  ⟨rfl, rfl⟩

/-- Theorem for amended claim C1: with no error handler configured, a
per account error propagates out of autovoteBot and stops the loop in
the sequential mode (the first propagating account aborts the cycle
with its error), but not in the parallel mode, where Promise.allSettled
absorbs every worker rejection and the cycle iteration always completes
normally, letting the loop continue. -/
theorem spec_C1 (tokens proxies : List String) (envs : EnvSeq) (s : Stats) :
    (cycleStep none true tokens proxies envs s).err = .ok () ∧
    (∀ idx tok e,
      tokens.get? idx = some tok →
      (∀ j tj st, j < idx → tokens.get? j = some tj →
        (handleSingle none tj (proxyArg proxies j) (envs j) st).err = .ok ()) →
      (∀ st, (handleSingle none tok (proxyArg proxies idx) (envs idx) st).err = .error e) →
      (cycleStep none false tokens proxies envs s).err = .error e) := by
  constructor
  · rfl
  · intro idx tok e hget hpre herr
    have hseq := seqGo_errProp proxies envs tokens 0 s idx tok e hget
      (fun j tj st hj hg => by simpa using hpre j tj st hj hg)
      (fun st => by simpa using herr st)
    simp only [cycleStep, sequentialCycle, Bool.false_eq_true, if_false, hseq]
    rfl

/-- Witness for spec_C1 at a concrete one account configuration whose
worker propagates an invalid token error. -/
theorem spec_C1_witness :
    (cycleStep none false ["tokenAlpha"] [] (fun _ => envCheckErr) ⟨1, 0, 0, 0⟩).err
        = Except.error "Invalid token token..." :=
  (spec_C1 ["tokenAlpha"] [] (fun _ => envCheckErr) ⟨1, 0, 0, 0⟩).2 0 "tokenAlpha"
    "Invalid token token..." rfl
    (fun j tj st hj _ => absurd hj (Nat.not_lt_zero j))
    (fun st => rfl)

/-- If every probe inside the deadline keeps waiting (raises or shows no
terminal marker), the poll loop returns Timeout. -/
theorem waitGo_timeout (probe : ProbeSeq) (t : Nat)
    (h : ∀ j, 2500 * j < t → isWaitingProbe (probe j) = true) :
    ∀ (fuel i : Nat), waitGo probe t i fuel = .timeout := by
  intro fuel
  induction fuel with
  | zero => intro i; rfl
  | succ n ih =>
    intro i
    by_cases hi : 2500 * i < t
    · have hw := h i hi
      cases hp : probe i with
      | none =>
        simp [waitGo, hi, hp]
        exact ih (i + 1)
      | some txt =>
        have hcv : classifyVoteText txt = .wait := by
          simpa [isWaitingProbe, hp] using hw
        simp [waitGo, hi, hp, hcv]
        exact ih (i + 1)
    · simp [waitGo, hi]

/-- The poll loop returns the classification of the first terminal probe
that occurs inside the deadline. -/
theorem waitGo_first (probe : ProbeSeq) (t : Nat) :
    ∀ (fuel i k : Nat) (txt : String),
    i ≤ k → k < i + fuel →
    (∀ j, i ≤ j → j < k → isWaitingProbe (probe j) = true) →
    probe k = some txt → 2500 * k < t → classifyVoteText txt ≠ .wait →
    waitGo probe t i fuel = probeToPoll (classifyVoteText txt) := by
  intro fuel
  induction fuel with
  | zero => intro i k txt hik hkf _ _ _ _; omega
  | succ n ih =>
    intro i k txt hik hkf hw hp ht hnw
    have hit : 2500 * i < t := by omega
    rcases Nat.lt_or_ge i k with hlt | hge
    · have hwi := hw i (Nat.le_refl i) hlt
      cases hp0 : probe i with
      | none =>
        simp [waitGo, hit, hp0]
        exact ih (i + 1) k txt hlt (by omega) (fun j hj1 hj2 => hw j (by omega) hj2) hp ht hnw
      | some s0 =>
        have hcv : classifyVoteText s0 = .wait := by
          simpa [isWaitingProbe, hp0] using hwi
        simp [waitGo, hit, hp0, hcv]
        exact ih (i + 1) k txt hlt (by omega) (fun j hj1 hj2 => hw j (by omega) hj2) hp ht hnw
    · have heq : i = k := Nat.le_antisymm hik hge
      subst heq
      simp [waitGo, hit, hp]
      cases hcv : classifyVoteText txt with
      | vote => simp [probeToPoll]
      | already => simp [probeToPoll]
      | wait => exact absurd hcv hnw

/-- A raising probe behaves exactly like a probe that reads a page with
no terminal marker: replacing every raising probe by a blank page read
never changes the poll result. -/
theorem waitGo_probeNorm (probe : ProbeSeq) (t : Nat) :
    ∀ (fuel i : Nat),
    waitGo probe t i fuel =
      waitGo (fun j => match probe j with | none => some "" | some s => some s) t i fuel := by
  intro fuel
  induction fuel with
  | zero => intro i; rfl
  | succ n ih =>
    intro i
    by_cases hi : 2500 * i < t
    · cases hp : probe i with
      | none =>
        have hcv : classifyVoteText "" = .wait := by decide
        simp [waitGo, hi, hp, hcv]
        exact ih (i + 1)
      | some s0 =>
        simp [waitGo, hi, hp]
        cases hcv : classifyVoteText s0 with
        | vote => simp [hcv]
        | already => simp [hcv]
        | wait => simp [hcv]; exact ih (i + 1)
    · simp [waitGo, hi]

/-- Theorem for claim C5: the poller returns the terminal classification
of the first probe whose page text contains a terminal marker, returns
Timeout when the deadline elapses with every probe still waiting, and a
probe that itself raises is treated identically to a still waiting
probe; the poller is a total function and never raises. -/
theorem spec_C5 (probe : ProbeSeq) (timeoutMs : Nat) :
    (∀ k txt, (∀ j, j < k → isWaitingProbe (probe j) = true) →
      probe k = some txt → 2500 * k < timeoutMs → classifyVoteText txt ≠ .wait →
      waitForVoteStatus probe timeoutMs = probeToPoll (classifyVoteText txt)) ∧
    ((∀ j, 2500 * j < timeoutMs → isWaitingProbe (probe j) = true) →
      waitForVoteStatus probe timeoutMs = .timeout) ∧
    waitForVoteStatus probe timeoutMs =
      waitForVoteStatus (fun j => match probe j with | none => some "" | some s => some s)
        timeoutMs := by
  refine ⟨?_, ?_, ?_⟩
  · intro k txt hw hp ht hnw
    have hk : k ≤ timeoutMs / 2500 := by
      rw [Nat.le_div_iff_mul_le (by norm_num)]
      omega
    exact waitGo_first probe timeoutMs (timeoutMs / 2500 + 1) 0 k txt (Nat.zero_le k)
      (by omega) (fun j _ hj => hw j hj) hp ht hnw
  · intro hw
    exact waitGo_timeout probe timeoutMs hw (timeoutMs / 2500 + 1) 0
  · exact waitGo_probeNorm probe timeoutMs (timeoutMs / 2500 + 1) 0

/-- A probe sequence whose every read shows the already voted marker. -/
def probeAlready : ProbeSeq := fun _ => some "You have already voted"

/-- Witness for spec_C5 at a concrete probe sequence that is terminal at
the first attempt. -/
theorem spec_C5_witness :
    waitForVoteStatus probeAlready 60000 = PollStatus.already := by
  have h := (spec_C5 probeAlready 60000).1 0 "You have already voted"
    (fun j hj => absurd hj (Nat.not_lt_zero j)) rfl (by norm_num) (by decide)
  rw [h]
  decide

/-- Reduction of a bind on a successful Except value. -/
theorem exceptBind_ok {α β : Type} (a : α) (f : α → Except Err β) :
    (Except.ok a >>= f : Except Err β) = f a := rfl

/-- Reduction of a bind on a raising Except value. -/
theorem exceptBindErr {α β : Type} (e : Err) (f : α → Except Err β) :
    (Except.error e >>= f : Except Err β) = Except.error e := rfl

/-- Pure in the Except monad is ok. -/
theorem exceptPure_def {α : Type} (a : α) : (pure a : Except Err α) = Except.ok a := rfl

/-- Throw in the Except monad is error. -/
theorem exceptThrow_def {α : Type} (e : Err) : (throw e : Except Err α) = Except.error e := rfl

/-- Under succeeding authentication steps, the body of the voting
routine is determined by the poll result and the vote page buttons. -/
theorem voteBody_run (env : VoteEnv) (h : authSteps env) :
    voteBody env =
      match waitForVoteStatus env.probes 60000 with
      | .vote =>
        match env.voteButtons with
        | .ok btns => .ok (true, (findVoteButton btns).isSome)
        | .error e => .error e
      | .already => .ok (false, false)
      | .timeout => .ok (false, false) := by
  obtain ⟨h1, h2, h3, h4, h5, h6, h7, h8, ⟨txt, h9, h10⟩, h11⟩ := h
  simp only [voteBody, h1, h2, h3, h4, h5, h6, h7, h8, h9, h10, h11, exceptBind_ok,
    exceptPure_def, exceptThrow_def, Bool.false_eq_true, if_false]
  cases hst : waitForVoteStatus env.probes 60000 with
  | vote =>
    cases hb : env.voteButtons with
    | ok btns => simp [hb, exceptBind_ok, exceptPure_def]
    | error e => simp [hb, exceptBindErr]
  | already => simp
  | timeout => simp

/-- A worker whose poll result is CanAct and whose vote page read
succeeds records Success and clicks exactly when an enabled vote button
exists. -/
theorem handleSingle_vote (errorLog : ErrHook) (token : String) (proxy : Option String)
    (env : AccountEnv) (stats : Stats) (btns : List Button)
    (hc : env.check = .ok true) (hcn : env.vote.connect = .ok ()) (ha : authSteps env.vote)
    (hst : waitForVoteStatus env.vote.probes 60000 = .vote)
    (hb : env.vote.voteButtons = .ok btns) :
    (handleSingle errorLog token proxy env stats).stats
        = { stats with success := stats.success + 1 } ∧
    (handleSingle errorLog token proxy env stats).err = .ok () ∧
    (handleSingle errorLog token proxy env stats).clicked = (findVoteButton btns).isSome := by
  have hbody : voteBody env.vote = .ok (true, (findVoteButton btns).isSome) := by
    simp [voteBody_run env.vote ha, hst, hb]
  have hres : (voteForBot env.vote).result = .ok true ∧
      (voteForBot env.vote).clicked = (findVoteButton btns).isSome := by
    simp only [voteForBot, hcn]
    cases hcl : env.vote.closeBrowser with
    | ok u => simp [hbody, hcl]
    | error e => simp [hbody, hcl]
  simp [handleSingle, hc, hres.1, hres.2]

/-- A worker whose poll result is AlreadyActed or Timeout records
Failed without raising, identically in both cases. -/
theorem handleSingle_noVote (errorLog : ErrHook) (token : String) (proxy : Option String)
    (env : AccountEnv) (stats : Stats)
    (hc : env.check = .ok true) (hcn : env.vote.connect = .ok ()) (ha : authSteps env.vote)
    (hst : waitForVoteStatus env.vote.probes 60000 = .already ∨
      waitForVoteStatus env.vote.probes 60000 = .timeout) :
    (handleSingle errorLog token proxy env stats).stats
        = { stats with failed := stats.failed + 1 } ∧
    (handleSingle errorLog token proxy env stats).err = .ok () := by
  have hbody : voteBody env.vote = .ok (false, false) := by
    rcases hst with hst | hst <;> simp [voteBody_run env.vote ha, hst]
  have hres : (voteForBot env.vote).result = .ok false := by
    simp only [voteForBot, hcn]
    cases hcl : env.vote.closeBrowser with
    | ok u => simp [hbody, hcl]
    | error e => simp [hbody, hcl]
  simp [handleSingle, hc, hres]

/-- Theorem for claim C8: on a CanAct poll result the worker performs
the action sequence and records Success; on AlreadyActed it records
Failed without raising; on Timeout it records Failed — AlreadyActed and
Timeout leave identical cycle statistics. -/
theorem spec_C8 (errorLog : ErrHook) (token : String) (proxy : Option String)
    (env : AccountEnv) (stats : Stats)
    (hc : env.check = .ok true) (hcn : env.vote.connect = .ok ()) (ha : authSteps env.vote) :
    (∀ btns, waitForVoteStatus env.vote.probes 60000 = .vote →
      env.vote.voteButtons = .ok btns →
      (handleSingle errorLog token proxy env stats).stats
          = { stats with success := stats.success + 1 } ∧
      (handleSingle errorLog token proxy env stats).err = .ok () ∧
      (handleSingle errorLog token proxy env stats).clicked = (findVoteButton btns).isSome) ∧
    ((waitForVoteStatus env.vote.probes 60000 = .already ∨
        waitForVoteStatus env.vote.probes 60000 = .timeout) →
      (handleSingle errorLog token proxy env stats).stats
          = { stats with failed := stats.failed + 1 } ∧
      (handleSingle errorLog token proxy env stats).err = .ok ()) :=
  ⟨fun btns hst hb => handleSingle_vote errorLog token proxy env stats btns hc hcn ha hst hb,
   fun hst => handleSingle_noVote errorLog token proxy env stats hc hcn ha hst⟩

/-- Witness for spec_C8 at a concrete account whose poll result is
AlreadyActed. -/
theorem spec_C8_witness :
    (handleSingle none "tokenAlpha" none envAccountOk ⟨1, 0, 0, 0⟩).stats
        = { total := 1, success := 0, failed := 1, invalid := 0 } ∧
    (handleSingle none "tokenAlpha" none envAccountOk ⟨1, 0, 0, 0⟩).err = Except.ok () :=
  (spec_C8 none "tokenAlpha" none envAccountOk ⟨1, 0, 0, 0⟩ rfl rfl
    ⟨rfl, rfl, rfl, rfl, rfl, rfl, rfl, rfl, ⟨"Welcome back", rfl, by decide⟩, rfl⟩).2
    (Or.inl rfl)

/-- An account whose vote page shows the can vote marker but whose only
vote button is disabled. -/
def envVoteNoBtn : AccountEnv :=
  { check := .ok true,
    vote := { envAllOk with
                probes := (fun _ => some "You can vote now!"),
                voteButtons := .ok [{ text := "Vote", disabled := true }] } }

/-- Theorem for claim C10: on a CanAct poll result with no enabled vote
button on the page, nothing is clicked, no error is raised, and the
worker still records Success. -/
theorem spec_C10 (errorLog : ErrHook) (token : String) (proxy : Option String)
    (env : AccountEnv) (stats : Stats) (btns : List Button)
    (hc : env.check = .ok true) (hcn : env.vote.connect = .ok ()) (ha : authSteps env.vote)
    (hst : waitForVoteStatus env.vote.probes 60000 = .vote)
    (hb : env.vote.voteButtons = .ok btns)
    (hno : ∀ b ∈ btns, strContains b.text "Vote" = false ∨ b.disabled = true) :
    (handleSingle errorLog token proxy env stats).clicked = false ∧
    (handleSingle errorLog token proxy env stats).err = .ok () ∧
    (handleSingle errorLog token proxy env stats).stats
        = { stats with success := stats.success + 1 } := by
  have hfind : findVoteButton btns = none := by
    unfold findVoteButton
    rw [List.find?_eq_none]
    intro b hbmem
    rcases hno b hbmem with h | h <;> simp [h]
  obtain ⟨hs, he, hcl⟩ := handleSingle_vote errorLog token proxy env stats btns hc hcn ha hst hb
  refine ⟨?_, he, hs⟩
  rw [hcl, hfind]
  rfl

/-- Witness for spec_C10 at a concrete account whose only vote button is
disabled. -/
theorem spec_C10_witness :
    (handleSingle none "tokenAlpha" none envVoteNoBtn ⟨1, 0, 0, 0⟩).clicked = false ∧
    (handleSingle none "tokenAlpha" none envVoteNoBtn ⟨1, 0, 0, 0⟩).err = Except.ok () ∧
    (handleSingle none "tokenAlpha" none envVoteNoBtn ⟨1, 0, 0, 0⟩).stats
        = { total := 1, success := 1, failed := 0, invalid := 0 } :=
  spec_C10 none "tokenAlpha" none envVoteNoBtn ⟨1, 0, 0, 0⟩
    [{ text := "Vote", disabled := true }] rfl rfl
    ⟨rfl, rfl, rfl, rfl, rfl, rfl, rfl, rfl, ⟨"Welcome back", rfl, by decide⟩, rfl⟩
    rfl rfl (by decide)
